import Mathlib

/-!
Verification of the `affine_space` library (headers `affine_space.h` and
`vector_space.h`).

The library is a header-only collection of CRTP base types giving points and
displacements (deltas) of an affine space, and elements of a plain vector
space, their in-place operators and the free-operator algebra.  Storage is a
single scalar when the dimension is 0 and a fixed array of `dimension`
scalars when the dimension is at least 1; the scalar type is constrained to
floating point.

Shallow embedding choices:
* the scalar type is modelled by `ℚ` (exact field arithmetic standing in for
  the floating-point scalar; every operation of the library is plain field
  arithmetic, so the algebraic claims are settled exactly);
* vector-valued storage of dimension `n` is `Fin n → ℚ`; the scalar-space
  (dimension 0) branch of each `if constexpr( vector_valued )` is embedded
  as a separate definition whose name carries an `s` in front;
* the in-place loops `for( i=0; i<ndim; ++i ){ element[i] ⊕= d[i]; }` are
  embedded operationally as a left fold over the index list updating one
  slot at a time, so that aliasing of the operand with the receiver is
  expressible;
* the C++ overload set of the free operators is mirrored by a finite
  dispatch table `overload`, used to state which operand combinations do
  not exist;
* the acceptance constraint on the scalar multiplier argument
  (`std::floating_point auto` in `delta_base`, `std::convertible_to<num_t>
  auto` in `vector_space_base`) is mirrored over a small universe of C++
  argument types.
-/

namespace AffineSpace

/-- Storage of a vector-valued (dimension `n ≥ 1`) point, delta or vector:
the `std::array<num_t,ndim> element` member, one rational per slot. -/
abbrev Vec (n : Nat) := Fin n → ℚ

/-- Operational embedding of the in-place member loops: visit the indices
`0, 1, …, n-1` in order and overwrite slot `i` with `f i` applied to the
current content of slot `i` (the loop bodies of the library read and write
only the slot of the current index). -/
def inplaceLoop {n : Nat} (f : Fin n → ℚ → ℚ) (s : Vec n) : Vec n :=
  (List.finRange n).foldl (fun st i => Function.update st i (f i (st i))) s

/-- Folding slot-wise updates over a duplicate-free index list changes
exactly the visited slots, each once. -/
theorem foldl_update_of_nodup {n : Nat} (f : Fin n → ℚ → ℚ) :
    ∀ (l : List (Fin n)), l.Nodup → ∀ (s : Vec n) (j : Fin n),
      l.foldl (fun st i => Function.update st i (f i (st i))) s j
        = if j ∈ l then f j (s j) else s j := by
  intro l
  induction l with
  | nil => intro _ s j; simp
  | cons i t ih =>
    intro hnd s j
    rcases List.nodup_cons.mp hnd with ⟨hi, ht⟩
    rw [List.foldl_cons, ih ht]
    by_cases hj : j = i
    · subst hj
      simp [Function.update_same, hi]
    · simp only [Function.update_noteq hj, List.mem_cons, hj, false_or]

/-- Evaluation of the embedded in-place loop: every slot ends up rewritten
by its own update function. -/
theorem inplaceLoop_apply {n : Nat} (f : Fin n → ℚ → ℚ) (s : Vec n) (j : Fin n) :
    inplaceLoop f s j = f j (s j) := by
  unfold inplaceLoop
  rw [foldl_update_of_nodup f (List.finRange n) (List.nodup_finRange n)]
  simp [List.mem_finRange]

/-! ## `point_base` in-place arithmetic (`affine_space.h`) -/

/-- `point_base::operator+=` for `ndim ≥ 1`:
`for( i=0; i<ndim; ++i ){ element[i]+=d[i]; }`. -/
def point_addEq {n : Nat} (p d : Vec n) : Vec n :=
  inplaceLoop (fun i x => x + d i) p

/-- `point_base::operator-=` for `ndim ≥ 1`:
`for( i=0; i<ndim; ++i ){ element[i]-=d[i]; }`. -/
def point_subEq {n : Nat} (p d : Vec n) : Vec n :=
  inplaceLoop (fun i x => x - d i) p

/-- `point_base::operator+=`, scalar branch (`ndim = 0`): `element+=d.element`. -/
def spoint_addEq (p d : ℚ) : ℚ := p + d

/-- `point_base::operator-=`, scalar branch (`ndim = 0`): `element-=d.element`. -/
def spoint_subEq (p d : ℚ) : ℚ := p - d

/-- Memory state of a `p += d` / `p -= d` call on distinct objects: the
storage of the receiver paired with the storage of the const-reference operand. -/
abbrev PMem (n : Nat) := Vec n × Vec n

/-- Whole effect of the member call `p += d` (`ndim ≥ 1`): the body writes
only `this->element`, the operand is taken by const reference, and the call
returns `static_cast<point_type&>(*this)` — the mutated receiver. The value
is (memory after the call, value returned). -/
def point_addEq_call {n : Nat} (m : PMem n) : PMem n × Vec n :=
  ((point_addEq m.1 m.2, m.2), point_addEq m.1 m.2)

/-- Whole effect of the member call `p -= d` (`ndim ≥ 1`), as for
`point_addEq_call`. -/
def point_subEq_call {n : Nat} (m : PMem n) : PMem n × Vec n :=
  ((point_subEq m.1 m.2, m.2), point_subEq m.1 m.2)

/-! ## `delta_base` in-place arithmetic (`affine_space.h`) -/

/-- Body of `delta_base::operator+=` for `ndim ≥ 1`, parameterised over how
the const reference `d` reads element `i` out of the current memory: when
`d` is a distinct object the read ignores the evolving state of the receiver,
when the call is `d += d` the reference aliases the receiver and reads its
current storage. -/
def delta_addEq_body {n : Nat} (rd : Vec n → Fin n → ℚ) (s : Vec n) : Vec n :=
  (List.finRange n).foldl (fun st i => Function.update st i (st i + rd st i)) s

/-- `delta_base::operator+=` called with a distinct operand object. -/
def delta_addEq {n : Nat} (s d : Vec n) : Vec n :=
  delta_addEq_body (fun _ i => d i) s

/-- `delta_base::operator+=` called as `d += d`: the operand reference
aliases the receiver, so `d[i]` reads the current slot `i` of the receiver. -/
def delta_addEq_self {n : Nat} (s : Vec n) : Vec n :=
  delta_addEq_body (fun st i => st i) s

/-- `delta_base::operator-=` for `ndim ≥ 1`. -/
def delta_subEq {n : Nat} (s d : Vec n) : Vec n :=
  inplaceLoop (fun i x => x - d i) s

/-- `delta_base::operator*=` for `ndim ≥ 1`:
`for( num_t& w : element ){ w*=a; }`. -/
def delta_mulEq {n : Nat} (s : Vec n) (a : ℚ) : Vec n :=
  inplaceLoop (fun _ x => x * a) s

/-- `delta_base::operator/=`: `return static_cast<delta_type&>(*this)*=1/a;`
— a single reciprocal, then the in-place multiply. -/
def delta_divEq {n : Nat} (s : Vec n) (a : ℚ) : Vec n :=
  delta_mulEq s (1 / a)

/-- `delta_base::operator-()` for `ndim ≥ 1`: copies the receiver, flips
each element of the copy, and returns the copy; the storage of the receiver is
never written. The value is (receiver storage after the call, value
returned). -/
def delta_neg_call {n : Nat} (d : Vec n) : Vec n × Vec n :=
  (d, inplaceLoop (fun _ x => -x) d)

/-- `delta_base::operator+=`, scalar branch: `element+=d.element`. -/
def sdelta_addEq (s d : ℚ) : ℚ := s + d

/-- Scalar branch of `d += d` with the operand aliasing the receiver:
`element += d.element` reads the own element of the receiver. -/
def sdelta_addEq_self (s : ℚ) : ℚ := s + s

/-- `delta_base::operator-=`, scalar branch: `element-=d.element`. -/
def sdelta_subEq (s d : ℚ) : ℚ := s - d

/-- `delta_base::operator*=`, scalar branch: `element*=a`. -/
def sdelta_mulEq (s a : ℚ) : ℚ := s * a

/-- `delta_base::operator/=`, scalar branch: in-place multiply by `1/a`. -/
def sdelta_divEq (s a : ℚ) : ℚ := sdelta_mulEq s (1 / a)

/-- `delta_base::operator-()`, scalar branch: `return {{-element}};`. -/
def sdelta_neg (d : ℚ) : ℚ := -d

/-! ## Free-operator algebra (`affine_space.h`) -/

/-- Free `operator-(point,point)` for `ndim ≥ 1`: zero-initialises a delta
and fills `del[i]=lhs[i]-rhs[i]`. -/
def point_sub {n : Nat} (lhs rhs : Vec n) : Vec n :=
  fun i => lhs i - rhs i

/-- Free `operator-(point,point)`, scalar branch:
`return {{lhs.element-rhs.element}};`. -/
def spoint_sub (lhs rhs : ℚ) : ℚ := lhs - rhs

/-- Free `operator+(point,delta)`: copy the point, apply `+=`. -/
def point_add_delta {n : Nat} (p d : Vec n) : Vec n := point_addEq p d

/-- Free `operator-(point,delta)`: copy the point, apply `-=`. -/
def point_sub_delta {n : Nat} (p d : Vec n) : Vec n := point_subEq p d

/-- Free `operator+(point,delta)`, scalar branch. -/
def spoint_add_delta (p d : ℚ) : ℚ := spoint_addEq p d

/-- Free `operator-(point,delta)`, scalar branch. -/
def spoint_sub_delta (p d : ℚ) : ℚ := spoint_subEq p d

/-- Free `operator+(delta,delta)`: copy the left operand, apply `+=`. -/
def delta_add {n : Nat} (lhs rhs : Vec n) : Vec n := delta_addEq lhs rhs

/-- Free `operator-(delta,delta)`: copy the left operand, apply `-=`. -/
def delta_sub {n : Nat} (lhs rhs : Vec n) : Vec n := delta_subEq lhs rhs

/-- Free `operator*(scalar,delta)`: copy the delta, apply `*=a`. -/
def smul_delta {n : Nat} (a : ℚ) (d : Vec n) : Vec n := delta_mulEq d a

/-- Free `operator*(delta,scalar)`: `return a*d;` — delegates to
`operator*(scalar,delta)`. -/
def delta_smul {n : Nat} (d : Vec n) (a : ℚ) : Vec n := smul_delta a d

/-- Free `operator/(delta,scalar)`: copy the delta, apply `/=a`. -/
def delta_div {n : Nat} (d : Vec n) (a : ℚ) : Vec n := delta_divEq d a

/-- Free `operator+(delta,delta)`, scalar branch. -/
def sdelta_add (lhs rhs : ℚ) : ℚ := sdelta_addEq lhs rhs

/-- Free `operator-(delta,delta)`, scalar branch. -/
def sdelta_sub (lhs rhs : ℚ) : ℚ := sdelta_subEq lhs rhs

/-- Free `operator*(scalar,delta)`, scalar branch. -/
def ssmul_delta (a d : ℚ) : ℚ := sdelta_mulEq d a

/-- Free `operator*(delta,scalar)`, scalar branch: delegates to
scalar-times-delta. -/
def sdelta_smul (d a : ℚ) : ℚ := ssmul_delta a d

/-- Free `operator/(delta,scalar)`, scalar branch. -/
def sdelta_div (d a : ℚ) : ℚ := sdelta_divEq d a

/-! ## Multiplier-argument acceptance (`std::floating_point auto` versus
`std::convertible_to<num_t> auto`)

`delta_base::operator*=` and `operator/=` in `affine_space.h` constrain the
scalar argument with `const std::floating_point auto a`;
`vector_space_base::operator*=` and `operator/=` in `vector_space.h`
constrain it with `const std::convertible_to<num_t> auto a` (with
`num_t = double` in the concrete spaces of the tests).  A small universe of
C++ argument types makes the difference statable. -/

/-- C++ types a multiplier argument might have in a call site such as
`d *= 5` (`cint`) or `d *= 5.0` (`cdouble`). -/
inductive CppTy
  | cint
  | cfloat
  | cdouble

/-- `std::floating_point<T>` over the universe: true exactly for the native
floating-point types. -/
def CppTy.floating : CppTy → Bool
  | .cint => false
  | .cfloat => true
  | .cdouble => true

/-- `std::convertible_to<T,double>` over the universe: `int`, `float` and
`double` all convert to `double`. -/
def CppTy.convToDouble : CppTy → Bool
  | .cint => true
  | .cfloat => true
  | .cdouble => true

/-- Whether `delta_base::operator*=` accepts a multiplier of the given
type: its argument is declared `const std::floating_point auto a`. -/
def delta_mulEq_accepts (t : CppTy) : Bool := t.floating

/-- Whether `vector_space_base::operator*=` accepts a multiplier of the
given type: its argument is declared
`const std::convertible_to<num_t> auto a`. -/
def vs_mulEq_accepts (t : CppTy) : Bool := t.convToDouble

/-! ## The free-operator overload set of `affine_space.h` -/

/-- Kinds of operand a binary expression over the library types can have. -/
inductive Operand
  | point
  | delta
  | scalar

/-- The four binary operators the library overloads. -/
inductive BinOp
  | add
  | sub
  | mul
  | div

/-- Dispatch table of the free operators defined in `affine_space.h`, one
line per operator definition in the header: the result kind when the
overload exists, `none` when no overload is declared for that combination
(so the expression fails to compile — a missing overload has no runtime
representation). -/
def overload : BinOp → Operand → Operand → Option Operand
  | .sub, .point, .point => some .delta
  | .add, .point, .delta => some .point
  | .sub, .point, .delta => some .point
  | .add, .delta, .delta => some .delta
  | .sub, .delta, .delta => some .delta
  | .mul, .scalar, .delta => some .delta
  | .mul, .delta, .scalar => some .delta
  | .div, .delta, .scalar => some .delta
  | _, _, _ => none

/-! ## `vector_space_base` (`vector_space.h`)

The scalar (`ndim = 0`) branches of the in-place operators of
`vector_space_base` compile and read exactly as those of `delta_base`.  The vector-valued
branches of `operator+=`, `operator-=` and `operator*=` do NOT compile when
instantiated: their loop bodies name a member `elems` that does not exist
(the member is `element`), and `operator-=` also loops to an undeclared
bound `N` (the template parameter is `ndim`); moreover the
`scalar_vector_base` alias omits the comma between its template parameters,
which is a parse error for the whole header.  The definitions below are
therefore modelled from the spec where marked. -/

/-- Modelled from the spec: `vector_space_base::operator+=` for
`ndim ≥ 1` as the spec and the own comment of the header describe it
(element-wise in-place addition); the loop body of the source
`elems[i]+=other[i]` names a nonexistent member and does not compile. -/
def vs_addEq {n : Nat} (s other : Vec n) : Vec n :=
  inplaceLoop (fun i x => x + other i) s

/-- Modelled from the spec: `vector_space_base::operator-=` for
`ndim ≥ 1` (element-wise in-place subtraction); the loop body of the source
`elems[i]-=other[i]` with bound `N` names a nonexistent member and an
undeclared bound and does not compile. -/
def vs_subEq {n : Nat} (s other : Vec n) : Vec n :=
  inplaceLoop (fun i x => x - other i) s

/-- `vector_space_base::operator+=`, scalar branch (this branch of the
source is well-formed): `element+=other.element`. -/
def svs_addEq (s other : ℚ) : ℚ := s + other

/-- `vector_space_base::operator-=`, scalar branch: `element-=other.element`. -/
def svs_subEq (s other : ℚ) : ℚ := s - other

/-! ## Stream insertion and extraction for the vector-space variant

No stream operator is defined in `src/affine_space/vector_space.h`; the
comment of the header documents insertion
(`ostream << v0[0] << " " << v0[1] ... << v0[n]`) and the spec documents
both directions, so both are modelled from the spec below.  Insertion is
modelled as producing a string, extraction as consuming scalar tokens from
a token stream. -/

/-- The elements of a vector in index order, as the token sequence the
stream operators traffic in. -/
def vec_tokens {n : Nat} (v : Vec n) : List ℚ := List.ofFn v

/-- Rendering of a token list with a single space between consecutive
tokens and no trailing separator. -/
def vec_write_list : List ℚ → String
  | [] => ""
  | [x] => toString x
  | x :: y :: t => toString x ++ " " ++ vec_write_list (y :: t)

/-- Modelled from the spec: the stream insertion operator of the
vector-space variant — writes the `dimension` elements in index order
separated by single spaces with no trailing separator. -/
def vec_write {n : Nat} (v : Vec n) : String := vec_write_list (vec_tokens v)

/-- Modelled from the spec: the stream extraction operator of the
vector-space variant — reads exactly `n` whitespace-delimited scalars from
the front of the token stream into the storage in index order and returns
the remaining stream (the stream positioned immediately after the last
consumed token); a stream with fewer than `n` tokens puts the stream in a
failure state, modelled by `none`. -/
def vec_read (n : Nat) (stream : List ℚ) : Option (Vec n × List ℚ) :=
  if h : n ≤ stream.length then
    some (fun i => stream.get ⟨i.1, Nat.lt_of_lt_of_le i.2 h⟩, stream.drop n)
  else
    none

/-! ## Pointwise evaluation lemmas for the loops -/

/-- Slot `j` after `+=` with a distinct operand. -/
theorem delta_addEq_apply {n : Nat} (s d : Vec n) (j : Fin n) :
    delta_addEq s d j = s j + d j :=
  inplaceLoop_apply (fun i x => x + d i) s j

/-- Slot `j` after the self-aliased `d += d`. -/
theorem delta_addEq_self_apply {n : Nat} (s : Vec n) (j : Fin n) :
    delta_addEq_self s j = s j + s j :=
  inplaceLoop_apply (fun _ x => x + x) s j

/-- Slot `j` after `-=`. -/
theorem delta_subEq_apply {n : Nat} (s d : Vec n) (j : Fin n) :
    delta_subEq s d j = s j - d j :=
  inplaceLoop_apply (fun i x => x - d i) s j

/-- Slot `j` after `*= a`. -/
theorem delta_mulEq_apply {n : Nat} (s : Vec n) (a : ℚ) (j : Fin n) :
    delta_mulEq s a j = s j * a :=
  inplaceLoop_apply (fun _ x => x * a) s j

/-- Slot `j` after the `+=` of the point. -/
theorem point_addEq_apply {n : Nat} (p d : Vec n) (j : Fin n) :
    point_addEq p d j = p j + d j :=
  inplaceLoop_apply (fun i x => x + d i) p j

/-- Slot `j` after the `-=` of the point. -/
theorem point_subEq_apply {n : Nat} (p d : Vec n) (j : Fin n) :
    point_subEq p d j = p j - d j :=
  inplaceLoop_apply (fun i x => x - d i) p j

/-- Nonempty-tail unfolding of the space-separated rendering. -/
theorem vec_write_list_cons (x : ℚ) (l : List ℚ) (h : l ≠ []) :
    vec_write_list (x :: l) = toString x ++ " " ++ vec_write_list l := by
  cases l with
  | nil => exact absurd rfl h
  | cons y t => rfl

/-! ## Claim theorems -/

/-- C1: the in-place division `d /= a` is defined as the in-place multiply
by the reciprocal `1/a` computed once (structurally, in both the
vector-valued and the scalar branch), and consequently the free `d / a`
returns a delta whose element `i` equals `d[i] * (1/a)`. -/
theorem div_is_mul_by_reciprocal :
    (∀ (n : Nat) (d : Vec n) (a : ℚ), delta_divEq d a = delta_mulEq d (1 / a)) ∧
    (∀ (n : Nat) (d : Vec n) (a : ℚ) (i : Fin n), delta_div d a i = d i * (1 / a)) ∧
    (∀ d a : ℚ, sdelta_divEq d a = sdelta_mulEq d (1 / a)) ∧
    (∀ d a : ℚ, sdelta_div d a = d * (1 / a)) := by
  refine ⟨fun n d a => rfl, fun n d a i => ?_, fun d a => rfl, fun d a => rfl⟩
  simpa [delta_div, delta_divEq] using delta_mulEq_apply d (1 / a) i

/-- C2 counterexample: `int` is convertible to the scalar type `double`,
yet `delta_base::operator*=` does not accept an `int` multiplier — its
argument is constrained by `std::floating_point`, so the concrete scenario
`delta{3} *= 5` with the integer literal `5` does not compile on the affine
delta. -/
theorem delta_mulEq_rejects_int :
    CppTy.convToDouble CppTy.cint = true ∧ delta_mulEq_accepts CppTy.cint = false :=
  ⟨rfl, rfl⟩

/-- C2 amended: the in-place scalar multiplication of the affine delta
accepts multipliers of floating-point type only (an integer literal is
rejected, while the vector-space variant does accept any type convertible
to the scalar type), and for an accepted multiplier every element (or the
single scalar) is multiplied by it — in particular `delta{3} *= 5.0` yields
the element `15.0`. -/
theorem delta_mulEq_floating_multipliers :
    delta_mulEq_accepts CppTy.cdouble = true ∧
    delta_mulEq_accepts CppTy.cfloat = true ∧
    delta_mulEq_accepts CppTy.cint = false ∧
    vs_mulEq_accepts CppTy.cint = true ∧
    (∀ (n : Nat) (d : Vec n) (a : ℚ) (i : Fin n), delta_mulEq d a i = d i * a) ∧
    (∀ d a : ℚ, sdelta_mulEq d a = d * a) ∧
    sdelta_mulEq 3 5 = 15 := by
  refine ⟨rfl, rfl, rfl, rfl, fun n d a i => delta_mulEq_apply d a i,
          fun d a => rfl, by norm_num [sdelta_mulEq]⟩

/-- C3: the contract the claim states of the vector-valued in-place
`v += w` / `v -= w` of the vector-space variant — element-wise
addition/subtraction across all `dimension` slots — holds of the operators
as the spec (and the own comment of the header) describe them; the shipped
bodies themselves do not compile (see `vs_addEq` and `vs_subEq`). -/
theorem vs_inplace_add_sub_elementwise :
    (∀ (n : Nat) (v w : Vec n) (i : Fin n), vs_addEq v w i = v i + w i) ∧
    (∀ (n : Nat) (v w : Vec n) (i : Fin n), vs_subEq v w i = v i - w i) ∧
    (∀ v w : ℚ, svs_addEq v w = v + w ∧ svs_subEq v w = v - w) := by
  refine ⟨fun n v w i => inplaceLoop_apply (fun i x => x + w i) v i,
          fun n v w i => inplaceLoop_apply (fun i x => x - w i) v i,
          fun v w => ⟨rfl, rfl⟩⟩

/-- C4: the stream insertion writes the `dimension` elements in index order
separated by single spaces with no trailing separator (no separator at all
for a single element, and one space between the head element and the rest
otherwise), and the extraction reads exactly `dimension` scalars in index
order, leaving the stream positioned immediately after the last consumed
token. -/
theorem vec_stream_write_read :
    (∀ v : Vec 1, vec_write v = toString (v 0)) ∧
    (∀ (n : Nat) (v : Vec (n + 2)),
        vec_write v
          = toString (v 0) ++ " " ++ vec_write (fun i : Fin (n + 1) => v i.succ)) ∧
    (∀ (n : Nat) (v : Vec n) (rest : List ℚ),
        vec_read n (vec_tokens v ++ rest) = some (v, rest)) := by
  refine ⟨fun v => ?_, fun n v => ?_, fun n v rest => ?_⟩
  · simp [vec_write, vec_tokens, List.ofFn_succ, List.ofFn_zero, vec_write_list]
  · have h : (List.ofFn fun i : Fin (n + 1) => v i.succ) ≠ [] := by
      have : (List.ofFn fun i : Fin (n + 1) => v i.succ).length = n + 1 :=
        List.length_ofFn _
      intro hnil
      rw [hnil] at this
      exact Nat.succ_ne_zero n this.symm
    show vec_write_list (List.ofFn v) = _
    rw [List.ofFn_succ, vec_write_list_cons (v 0) _ h]
    rfl
  · have hlen : (vec_tokens v).length = n := List.length_ofFn v
    have h : n ≤ (vec_tokens v ++ rest).length := by
      rw [List.length_append, hlen]
      exact Nat.le_add_right n rest.length
    rw [vec_read, dif_pos h]
    simp only [Option.some.injEq, Prod.mk.injEq]
    constructor
    · funext i
      have hi : (i : Nat) < (vec_tokens v).length := by
        rw [hlen]; exact i.2
      rw [List.get_eq_getElem, List.getElem_append_left hi]
      simp [vec_tokens]
    · have hd := List.drop_left (vec_tokens v) rest
      rwa [hlen] at hd

/-- C5: `p += d` and `p -= d` add/subtract the delta element-wise across
all `dimension` slots (or perform the single scalar add/subtract for
dimension 0), return the mutated point, write only the storage of the
receiver, and leave the delta operand unmodified. -/
theorem point_translate_inplace :
    (∀ (n : Nat) (m : PMem n) (i : Fin n),
        (point_addEq_call m).1.1 i = m.1 i + m.2 i ∧
        (point_subEq_call m).1.1 i = m.1 i - m.2 i) ∧
    (∀ (n : Nat) (m : PMem n),
        (point_addEq_call m).2 = (point_addEq_call m).1.1 ∧
        (point_addEq_call m).1.2 = m.2 ∧
        (point_subEq_call m).2 = (point_subEq_call m).1.1 ∧
        (point_subEq_call m).1.2 = m.2) ∧
    (∀ p d : ℚ, spoint_addEq p d = p + d ∧ spoint_subEq p d = p - d) := by
  refine ⟨fun n m i => ⟨point_addEq_apply m.1 m.2 i, point_subEq_apply m.1 m.2 i⟩,
          fun n m => ⟨rfl, rfl, rfl, rfl⟩,
          fun p d => ⟨rfl, rfl⟩⟩

/-- C6: the free operators satisfy the round-trip laws
`(P + D) - D = P` and `(P - D) + D = P`, exactly in the embedding (hence in
particular within any epsilon), in both the vector-valued and the scalar
branch. -/
theorem point_delta_round_trip :
    (∀ (n : Nat) (p d : Vec n), point_sub_delta (point_add_delta p d) d = p) ∧
    (∀ (n : Nat) (p d : Vec n), point_add_delta (point_sub_delta p d) d = p) ∧
    (∀ p d : ℚ, spoint_sub_delta (spoint_add_delta p d) d = p) ∧
    (∀ p d : ℚ, spoint_add_delta (spoint_sub_delta p d) d = p) := by
  refine ⟨fun n p d => ?_, fun n p d => ?_,
          fun p d => by
            simp [spoint_sub_delta, spoint_add_delta, spoint_addEq, spoint_subEq],
          fun p d => by
            simp [spoint_sub_delta, spoint_add_delta, spoint_addEq, spoint_subEq]⟩
  · funext i
    simp only [point_sub_delta, point_add_delta]
    rw [point_subEq_apply, point_addEq_apply]
    ring
  · funext i
    simp only [point_sub_delta, point_add_delta]
    rw [point_addEq_apply, point_subEq_apply]
    ring

/-- C7: scalar multiplication commutes with operand order: the
delta-times-scalar overload delegates to the scalar-times-delta overload
(they are the same function of the operands), and both give the delta whose
element `i` is `a * d[i]`. -/
theorem scalar_mul_commutes :
    (∀ (n : Nat) (d : Vec n) (a : ℚ), delta_smul d a = smul_delta a d) ∧
    (∀ (n : Nat) (d : Vec n) (a : ℚ) (i : Fin n),
        smul_delta a d i = a * d i ∧ delta_smul d a i = a * d i) ∧
    (∀ d a : ℚ, sdelta_smul d a = ssmul_delta a d ∧ ssmul_delta a d = a * d) := by
  refine ⟨fun n d a => rfl, fun n d a i => ?_, fun d a => ⟨rfl, mul_comm d a⟩⟩
  have h := delta_mulEq_apply d a i
  exact ⟨by simpa [smul_delta, mul_comm] using h,
         by simpa [delta_smul, smul_delta, mul_comm] using h⟩

/-- C8: unary negation returns a new delta whose every element is
sign-flipped (the negated scalar for dimension 0) and leaves the storage of
the receiver exactly as it was. -/
theorem delta_negation_fresh :
    (∀ (n : Nat) (d : Vec n) (i : Fin n), (delta_neg_call d).2 i = -(d i)) ∧
    (∀ (n : Nat) (d : Vec n), (delta_neg_call d).1 = d) ∧
    (∀ d : ℚ, sdelta_neg d = -d) :=
  ⟨fun _ d i => inplaceLoop_apply (fun _ x => -x) d i,
   fun _ _ => rfl, fun _ => rfl⟩

/-- C9: the overload table of the free operators has no entry for
point+point, point×scalar, scalar×point, point÷scalar or delta−point: those
expressions have no operator to resolve to, so they are rejected at compile
time and no runtime representation of the error exists. -/
theorem absent_operations_do_not_exist :
    overload BinOp.add Operand.point Operand.point = none ∧
    overload BinOp.mul Operand.point Operand.scalar = none ∧
    overload BinOp.mul Operand.scalar Operand.point = none ∧
    overload BinOp.div Operand.point Operand.scalar = none ∧
    overload BinOp.sub Operand.delta Operand.point = none :=
  ⟨rfl, rfl, rfl, rfl, rfl⟩

/-- C10: the self-aliased call `d += d` is safe: each slot is read and
written independently in index order, so every slot ends up exactly doubled
(and the scalar branch doubles the single element). -/
theorem self_aliased_add_doubles :
    (∀ (n : Nat) (d : Vec n) (i : Fin n), delta_addEq_self d i = 2 * d i) ∧
    (∀ d : ℚ, sdelta_addEq_self d = 2 * d) := by
  constructor
  · intro n d i
    rw [delta_addEq_self_apply]
    ring
  · intro d
    show d + d = 2 * d
    ring

end AffineSpace
